import Mathlib

/-
Verification of the image-preparation and request-orchestration pipeline of
shadow_defective.py: a shallow embedding of the pure content of
APIWorker.encode_image, APIWorker.run (prompt substitution), dms_to_dd,
ShadowDetectiveApp._try_populate_gps, ShadowDetectiveApp.run_analysis and
ShadowDetectiveApp.on_analysis_error, together with theorems settling the
specification's claims about them.
-/

namespace ShadowDefective

/-- Whitespace characters removed by Python str.strip() (ASCII range). -/
def isPySpace (c : Char) : Bool :=
  c = ' ' || c = '\t' || c = '\n' || c = '\r' || c = '\x0b' || c = '\x0c'

/-- Python str.strip() on character lists: drop leading and trailing whitespace. -/
def pyStripL (s : List Char) : List Char :=
  ((s.dropWhile isPySpace).reverse.dropWhile isPySpace).reverse

/-- Python str.strip() on strings. -/
def pyStrip (s : String) : String := ⟨pyStripL s.data⟩

/-- Left-to-right non-overlapping replacement with a fuel bound (one unit of
fuel per character examined; each step consumes at least one character, so
fuel equal to the list's length always suffices). -/
def replaceAux (pat rep : List Char) : ℕ → List Char → List Char
  | _, [] => []
  | 0, c :: cs => c :: cs
  | fuel + 1, c :: cs =>
    if pat ≠ [] ∧ pat <+: c :: cs then
      rep ++ replaceAux pat rep fuel ((c :: cs).drop pat.length)
    else
      c :: replaceAux pat rep fuel cs

/-- Python str.replace on character lists: replace every non-overlapping
occurrence of pat by rep, scanning left to right.  The empty pattern leaves
the list unchanged (the source only ever replaces the non-empty tokens
"\x7blat\x7d" and "\x7blon\x7d"). -/
def replaceL (pat rep s : List Char) : List Char := replaceAux pat rep s.length s

/-- Python str.replace on strings. -/
def replaceStr (s pat rep : String) : String := ⟨replaceL pat.data rep.data s.data⟩

/-- The literal latitude placeholder token "\x7blat\x7d". -/
def latToken : String := "\x7blat\x7d"

/-- The literal longitude placeholder token "\x7blon\x7d". -/
def lonToken : String := "\x7blon\x7d"

/-- Prompt substitution from APIWorker.run, line 67:
prompt_text = self.prompt_template.replace("\x7blat\x7d", self.lat).replace("\x7blon\x7d", self.lon). -/
def resolvePrompt (template la lo : String) : String :=
  replaceStr (replaceStr template latToken la) lonToken lo

/-- Python substring membership test (the `in` operator on str). -/
def pyContains (s sub : String) : Prop := sub.data <:+: s.data

instance (s sub : String) : Decidable (pyContains s sub) :=
  inferInstanceAs (Decidable (sub.data <:+: s.data))

/-- Python str.lower(), restricted to ASCII case mapping. -/
def pyToLower (s : String) : String := ⟨s.data.map Char.toLower⟩

/-- Round-half-even on rationals, the tie-breaking rule of Python round(). -/
def roundHalfEven (q : ℚ) : ℤ :=
  let f := ⌊q⌋
  let r := q - (f : ℚ)
  if r < 1/2 then f
  else if 1/2 < r then f + 1
  else if f % 2 = 0 then f else f + 1

/-- Python round(x, 6), modelled exactly on rationals. -/
def pyRound6 (q : ℚ) : ℚ := ((roundHalfEven (q * 1000000) : ℤ) : ℚ) / 1000000

/-- dms_to_dd from _try_populate_gps (shadow_defective.py lines 247-252):
dd = degrees + minutes/60 + seconds/3600, negated when ref is S or W,
then round(dd, 6). -/
def dms_to_dd (degrees minutes seconds : ℚ) (ref : String) : ℚ :=
  let dd := degrees + minutes / 60 + seconds / 3600
  let dd := if ref = "S" ∨ ref = "W" then -dd else dd
  pyRound6 dd

/-- The GPSInfo sub-dictionary assembled by _try_populate_gps: the four fields
the code reads, each possibly absent, plus the names of any other GPS tags
present (they only matter for the emptiness test on the dictionary). -/
structure GpsInfo where
  gpsLatitude : Option (List ℚ)
  gpsLatitudeRef : Option String
  gpsLongitude : Option (List ℚ)
  gpsLongitudeRef : Option String
  otherTags : List String
deriving DecidableEq

/-- The gps_info dictionary is empty (Python `if not gps_info`). -/
def gpsEmpty (g : GpsInfo) : Bool :=
  g.gpsLatitude.isNone && g.gpsLatitudeRef.isNone && g.gpsLongitude.isNone &&
    g.gpsLongitudeRef.isNone && g.otherTags.isEmpty

/-- Exceptions the body of _try_populate_gps can raise: KeyError on a missing
GPSLatitude/GPSLongitude entry, ValueError when the DMS value does not unpack
into exactly three components. -/
inductive GpsErr
  | missingTag
  | badArity
deriving DecidableEq

/-- Unpacking `degrees, minutes, seconds = dms`: succeeds exactly on
three-component values. -/
def unpackDms : List ℚ → Except GpsErr (ℚ × ℚ × ℚ)
  | [d, m, s] => .ok (d, m, s)
  | _ => .error .badArity

/-- The body of _try_populate_gps (shadow_defective.py lines 229-257), before
the enclosing try/except: returns the populated coordinate pair, none when
metadata or the GPS sub-block is absent, or raises one of the modelled
exceptions. -/
def populate_gps_body (exif : Option GpsInfo) : Except GpsErr (Option (ℚ × ℚ)) := do
  match exif with
  | none => return none
  | some g =>
    if gpsEmpty g then return none
    else
      let latDms ← match g.gpsLatitude with
        | some v => .ok v
        | none => .error .missingTag
      let (latD, latM, latS) ← unpackDms latDms
      let lat := dms_to_dd latD latM latS (g.gpsLatitudeRef.getD "N")
      let lonDms ← match g.gpsLongitude with
        | some v => .ok v
        | none => .error .missingTag
      let (lonD, lonM, lonS) ← unpackDms lonDms
      let lon := dms_to_dd lonD lonM lonS (g.gpsLongitudeRef.getD "E")
      return some (lat, lon)

/-- Model of _try_populate_gps (shadow_defective.py lines 227-260): the body wrapped in
`try: ... except Exception: pass` — every raised exception is absorbed and the
coordinate fields are simply left unpopulated. -/
def try_populate_gps (exif : Option GpsInfo) : Option (ℚ × ℚ) :=
  match populate_gps_body exif with
  | .ok r => r
  | .error _ => none

/-- Rewritten hint for the authentication branch of on_analysis_error. -/
def authHint : String := "Authentication failed. Please check your OpenAI API key."

/-- Rewritten hint for the rate-limit branch of on_analysis_error. -/
def rateHint : String := "Rate limit or quota exceeded. Wait a moment or check your OpenAI billing."

/-- Rewritten hint for the network branch of on_analysis_error. -/
def netHint : String := "Network error. Check your internet connection and try again."

/-- First condition of on_analysis_error (line 306): the message carries a 401
marker or an incorrect/invalid-key signal. -/
def authCond (msg : String) : Prop :=
  pyContains msg "401" ∨ pyContains msg "Incorrect API key" ∨ pyContains msg "invalid_api_key"

/-- Second condition of on_analysis_error (line 308): 429 marker or the
literal text "Rate limit". -/
def rateCond (msg : String) : Prop :=
  pyContains msg "429" ∨ pyContains msg "Rate limit"

/-- Third condition of on_analysis_error (line 310): connection, network, or
(case-insensitively) timeout wording. -/
def netCond (msg : String) : Prop :=
  pyContains msg "Connection" ∨ pyContains msg "Network" ∨ pyContains (pyToLower msg) "timeout"

instance (msg : String) : Decidable (authCond msg) :=
  inferInstanceAs (Decidable (_ ∨ _ ∨ _))

instance (msg : String) : Decidable (rateCond msg) :=
  inferInstanceAs (Decidable (_ ∨ _))

instance (msg : String) : Decidable (netCond msg) :=
  inferInstanceAs (Decidable (_ ∨ _ ∨ _))

/-- on_analysis_error (shadow_defective.py lines 304-313): the user-facing
message chosen for a raw worker error string. -/
def on_analysis_error (error_msg : String) : String :=
  if authCond error_msg then authHint
  else if rateCond error_msg then rateHint
  else if netCond error_msg then netHint
  else error_msg

/-- Pillow's round_aspect helper (used by Image.thumbnail): choose between the
floor and the ceiling of number, preferring the floor when its key is not
larger, then clamp the result to at least 1. -/
def round_aspect (number : ℚ) (key : ℤ → ℚ) : ℤ :=
  max (if key ⌊number⌋ ≤ key ⌈number⌉ then ⌊number⌋ else ⌈number⌉) 1

/-- Dimension computation of PIL Image.thumbnail((bound, bound)) as invoked by
APIWorker.encode_image (line 41) with bound 1920, following Pillow's
preserve_aspect_ratio: unchanged when both dimensions already fit, otherwise
the long side is set to the bound and the short side is the aspect-preserving
value rounded by round_aspect (exact rational arithmetic stands in for
Pillow's float arithmetic). -/
def thumbnailDims (bound w h : ℕ) : ℕ × ℕ :=
  if bound ≥ w ∧ bound ≥ h then (w, h)
  else if (1 : ℚ) ≥ (w : ℚ) / (h : ℚ) then
    ((round_aspect ((bound : ℚ) * ((w : ℚ) / (h : ℚ)))
        (fun n => |(w : ℚ) / (h : ℚ) - (n : ℚ) / (bound : ℚ)|)).toNat, bound)
  else
    (bound, (round_aspect ((bound : ℚ) / ((w : ℚ) / (h : ℚ)))
        (fun n => if n = 0 then 0 else |(w : ℚ) / (h : ℚ) - (bound : ℚ) / (n : ℚ)|)).toNat)

/-- The attributes of a PIL image relevant to encode_image: pixel dimensions,
color mode, and the format attribute (None once lost, e.g. after thumbnail). -/
structure LoadedImage where
  width : ℕ
  height : ℕ
  mode : String
  format : Option String
deriving DecidableEq

/-- The observable outcome of encode_image: dimensions, color mode and format
of the serialized image, and the reported MIME type. -/
structure EncodedImage where
  width : ℕ
  height : ℕ
  mode : String
  fmt : String
  mime_type : String
deriving DecidableEq

/-- PIL color modes that include an alpha channel. -/
def modeHasAlpha (mode : String) : Bool :=
  mode = "RGBA" || mode = "LA" || mode = "PA" || mode = "RGBa" || mode = "La"

/-- PIL color modes that are palette-based. -/
def modeHasPalette (mode : String) : Bool := mode = "P" || mode = "PA"

/-- APIWorker.encode_image (shadow_defective.py lines 38-57) on image
attributes.  mimeGuess models mimetypes.guess_type(image_path): thumbnail to
the 1920 bound, fmt = img.format or "JPEG", an unrecognized MIME type forces
("image/jpeg", "JPEG"), and the mode is converted to RGB exactly when the MIME
type is image/jpeg and the mode is RGBA or P. -/
def encode_image (img : LoadedImage) (mimeGuess : Option String) : EncodedImage :=
  let dims := thumbnailDims 1920 img.width img.height
  let fmt0 := img.format.getD "JPEG"
  let mime_type := mimeGuess.getD "image/jpeg"
  let fmt := if mimeGuess = none then "JPEG" else fmt0
  let mode :=
    if mime_type = "image/jpeg" ∧ (img.mode = "RGBA" ∨ img.mode = "P") then "RGB" else img.mode
  { width := dims.1, height := dims.2, mode := mode, fmt := fmt, mime_type := mime_type }

/-- The validation failures run_analysis can surface before starting a worker
(each one is a QMessageBox.warning followed by an early return). -/
inductive ValidationError
  | missingKey
  | missingImage
  | missingCoords
  | emptyPrompt
deriving DecidableEq

/-- The five attributes APIWorker.__init__ (lines 30-36) stores on the worker. -/
structure WorkerArgs where
  api_key : String
  image_path : String
  lat : String
  lon : String
  prompt_template : String
deriving DecidableEq

/-- The validation core of ShadowDetectiveApp.run_analysis (lines 266-297):
strip the four text inputs, check key, image, coordinates and prompt in the
source's order, and on success hand the stripped values to a fresh APIWorker. -/
def run_analysis (apiInput : String) (imagePath : Option String)
    (latInput lonInput promptInput : String) : Except ValidationError WorkerArgs :=
  let api_key := pyStrip apiInput
  let lat := pyStrip latInput
  let lon := pyStrip lonInput
  let prompt := pyStrip promptInput
  if api_key = "" then .error .missingKey
  else if imagePath.getD "" = "" then .error .missingImage
  else if lat = "" ∨ lon = "" then .error .missingCoords
  else if prompt = "" then .error .emptyPrompt
  else .ok ⟨api_key, imagePath.getD "", lat, lon, prompt⟩

/-- Number of outbound client calls a submission leads to: a started worker
performs exactly one client.chat.completions.create call (APIWorker.run), a
rejected submission performs none. -/
def clientCalls : Except ValidationError WorkerArgs → ℕ
  | .ok _ => 1
  | .error _ => 0

/-- The fields of ShadowDetectiveApp relevant to credential lifetime: the
input widgets' current texts, the selected image path, the retained worker
reference, and the run/result status. -/
structure AppState where
  api_input : String
  lat_input : String
  lon_input : String
  prompt_text : String
  image_path : Option String
  worker : Option WorkerArgs
  analyzing : Bool
  result_text : String
deriving DecidableEq

/-- ShadowDetectiveApp.run_analysis as a state transition: on validation
failure the state is unchanged (a warning dialog is shown); on success
self.worker is replaced by the new APIWorker — whose attributes include the
api_key — and the run starts. -/
def app_run_analysis (st : AppState) : AppState :=
  match run_analysis st.api_input st.image_path st.lat_input st.lon_input st.prompt_text with
  | .error _ => st
  | .ok w => { st with worker := some w, analyzing := true, result_text := "" }

/-- ShadowDetectiveApp.on_analysis_complete (lines 299-302) plus _reset_button:
stores the result and re-arms the UI.  worker.deleteLater() destroys the Qt
thread object, but self.worker still references the Python wrapper, whose
plain attributes (api_key among them) persist, so the worker field is kept. -/
def on_analysis_complete (st : AppState) (result : String) : AppState :=
  { st with result_text := result, analyzing := false }

/-- The app, through its retained worker reference, still holds the given
credential string. -/
def retains_credential (st : AppState) (key : String) : Bool :=
  match st.worker with
  | some w => w.api_key == key
  | none => false

/-! Helper lemmas about the string model. -/

theorem replaceAux_eq_self (pat rep : List Char) :
    ∀ (fuel : ℕ) (s : List Char), ¬ pat <:+: s → replaceAux pat rep fuel s = s := by
  intro fuel
  induction fuel with
  | zero => intro s h; cases s <;> rfl
  | succ n ih =>
    intro s h
    cases s with
    | nil => rfl
    | cons c cs =>
      simp only [replaceAux]
      rw [if_neg fun hc => h hc.2.isInfix, ih cs fun hic => h (List.infix_cons hic)]

/-- A replaced occurrence leaves the replacement verbatim in the output. -/
theorem replaceAux_surrounds (pat rep : List Char) (hpat : pat ≠ []) :
    ∀ (fuel : ℕ) (s : List Char), s.length ≤ fuel → pat <:+: s →
      ∃ a b, replaceAux pat rep fuel s = a ++ rep ++ b := by
  intro fuel
  induction fuel with
  | zero =>
    intro s hlen hinf
    have hs : s = [] := List.eq_nil_of_length_eq_zero (Nat.le_zero.mp hlen)
    subst hs
    exact absurd (List.infix_nil.mp hinf) hpat
  | succ n ih =>
    intro s hlen hinf
    cases s with
    | nil => exact absurd (List.infix_nil.mp hinf) hpat
    | cons c cs =>
      simp only [replaceAux]
      by_cases hpre : pat <+: c :: cs
      · rw [if_pos ⟨hpat, hpre⟩]
        exact ⟨[], replaceAux pat rep n ((c :: cs).drop pat.length), by simp⟩
      · rw [if_neg fun hc => hpre hc.2]
        have hinf' : pat <:+: cs := by
          rcases List.infix_cons_iff.mp hinf with h | h
          · exact absurd h hpre
          · exact h
        have hlen' : cs.length ≤ n := by
          simpa [List.length_cons, Nat.succ_le_succ_iff] using hlen
        obtain ⟨a, b, hab⟩ := ih cs hlen' hinf'
        exact ⟨c :: a, b, by rw [hab]; simp⟩

/-- Replacement keeps some character satisfying p as long as both the input
and the replacement string contain one. -/
theorem replaceAux_mem (p : Char → Bool) (pat rep : List Char)
    (hr : ∃ c ∈ rep, p c = true) :
    ∀ (fuel : ℕ) (s : List Char), (∃ c ∈ s, p c = true) →
      ∃ c ∈ replaceAux pat rep fuel s, p c = true := by
  intro fuel
  induction fuel with
  | zero =>
    intro s hs
    cases s with
    | nil => simp at hs
    | cons c cs => exact hs
  | succ n ih =>
    intro s hs
    cases s with
    | nil => simp at hs
    | cons c cs =>
      simp only [replaceAux]
      by_cases hcond : pat ≠ [] ∧ pat <+: c :: cs
      · rw [if_pos hcond]
        obtain ⟨d, hd, hpd⟩ := hr
        exact ⟨d, List.mem_append.mpr (Or.inl hd), hpd⟩
      · rw [if_neg hcond]
        obtain ⟨d, hd, hpd⟩ := hs
        rcases List.mem_cons.mp hd with h | h
        · exact ⟨d, by rw [h]; exact List.mem_cons_self c _, hpd⟩
        · obtain ⟨e, he, hpe⟩ := ih cs ⟨d, h, hpd⟩
          exact ⟨e, List.mem_cons_of_mem c he, hpe⟩

theorem replaceL_eq_self (pat rep s : List Char) (h : ¬ pat <:+: s) :
    replaceL pat rep s = s :=
  replaceAux_eq_self pat rep s.length s h

theorem replaceL_surrounds (pat rep s : List Char) (hpat : pat ≠ []) (h : pat <:+: s) :
    ∃ a b, replaceL pat rep s = a ++ rep ++ b :=
  replaceAux_surrounds pat rep hpat s.length s (Nat.le_refl _) h

theorem rep_infix_replaceL (pat rep s : List Char) (hpat : pat ≠ []) (h : pat <:+: s) :
    rep <:+: replaceL pat rep s := by
  obtain ⟨a, b, hab⟩ := replaceL_surrounds pat rep s hpat h
  exact ⟨a, b, hab.symm⟩

theorem replaceL_mem (p : Char → Bool) (pat rep s : List Char)
    (hr : ∃ c ∈ rep, p c = true) (hs : ∃ c ∈ s, p c = true) :
    ∃ c ∈ replaceL pat rep s, p c = true :=
  replaceAux_mem p pat rep hr s.length s hs

theorem mem_dropWhile_of_neg {p : Char → Bool} {l : List Char} {c : Char}
    (hc : c ∈ l) (hp : p c = false) : c ∈ l.dropWhile p := by
  induction l with
  | nil => cases hc
  | cons a as ih =>
    rw [List.dropWhile_cons]
    by_cases ha : p a = true
    · rw [if_pos ha]
      rcases List.mem_cons.mp hc with h | h
      · rw [h] at hp; rw [hp] at ha; cases ha
      · exact ih h
    · rw [if_neg ha]; exact hc

/-- Stripping only removes whitespace: a non-whitespace member survives. -/
theorem mem_pyStripL {l : List Char} {c : Char} (hc : c ∈ l)
    (hp : isPySpace c = false) : c ∈ pyStripL l := by
  unfold pyStripL
  have h1 : c ∈ l.dropWhile isPySpace := mem_dropWhile_of_neg hc hp
  have h2 := mem_dropWhile_of_neg (List.mem_reverse.mpr h1) hp
  exact List.mem_reverse.mpr h2

/-- A list strips to nothing exactly when it is all whitespace. -/
theorem pyStripL_eq_nil_iff {l : List Char} :
    pyStripL l = [] ↔ ∀ c ∈ l, isPySpace c = true := by
  constructor
  · intro h c hc
    by_contra hb
    have hf : isPySpace c = false := by
      revert hb; cases isPySpace c <;> simp
    have hm := mem_pyStripL hc hf
    rw [h] at hm
    cases hm
  · intro h
    have h1 : l.dropWhile isPySpace = [] := List.dropWhile_eq_nil_iff.mpr h
    unfold pyStripL
    rw [h1]
    rfl

/-- A string strips to "" exactly when it is empty or whitespace-only. -/
theorem pyStrip_eq_empty_iff (s : String) :
    pyStrip s = "" ↔ ∀ c ∈ s.data, isPySpace c = true := by
  unfold pyStrip
  rw [show ("" : String) = ⟨[]⟩ from rfl, String.ext_iff]
  exact pyStripL_eq_nil_iff

/-- A string that does not strip to "" yields a non-whitespace character that
survives stripping. -/
theorem exists_nonspace_of_pyStrip_ne (s : String) (h : pyStrip s ≠ "") :
    ∃ c ∈ (pyStrip s).data, (!isPySpace c) = true := by
  have h0 : ¬ ∀ c ∈ s.data, isPySpace c = true :=
    fun hall => h ((pyStrip_eq_empty_iff s).mpr hall)
  push_neg at h0
  obtain ⟨c, hc, hcs⟩ := h0
  have hf : isPySpace c = false := by
    revert hcs; cases isPySpace c <;> simp
  exact ⟨c, mem_pyStripL hc hf, by rw [hf]; rfl⟩

/-! Claim theorems. -/

/-- C3: GPS metadata extraction never raises to its caller: whenever the body
of _try_populate_gps raises (missing or malformed sub-field), the wrapped
function reports no usable coordinates instead of propagating the failure. -/
theorem try_populate_gps_absorbs (exif : Option GpsInfo) (e : GpsErr)
    (h : populate_gps_body exif = .error e) : try_populate_gps exif = none := by
  unfold try_populate_gps
  rw [h]

/-- C3 witness: a GPS block whose GPSLatitude has only two components makes
the body raise, and the wrapped extraction yields no coordinates. -/
theorem try_populate_gps_absorbs_witness :
    populate_gps_body (some ⟨some [1, 2], none, none, none, []⟩) = .error .badArity ∧
      try_populate_gps (some ⟨some [1, 2], none, none, none, []⟩) = none :=
  ⟨rfl, try_populate_gps_absorbs _ .badArity rfl⟩

/-- C4: the error classifier maps auth-signal messages to the rewritten
authentication hint (never the raw message), then 429/rate-limit messages to
the rate-limit hint, then connection/network/timeout messages to the
connectivity hint, and passes every other message through verbatim. -/
theorem on_analysis_error_classification (msg : String) :
    (authCond msg → on_analysis_error msg = authHint ∧ on_analysis_error msg ≠ msg) ∧
    (¬ authCond msg → rateCond msg → on_analysis_error msg = rateHint) ∧
    (¬ authCond msg → ¬ rateCond msg → netCond msg → on_analysis_error msg = netHint) ∧
    (¬ authCond msg → ¬ rateCond msg → ¬ netCond msg → on_analysis_error msg = msg) := by
  refine ⟨?_, ?_, ?_, ?_⟩
  · intro h
    have he : on_analysis_error msg = authHint := by
      unfold on_analysis_error; rw [if_pos h]
    refine ⟨he, ?_⟩
    rw [he]
    intro heq
    rw [← heq] at h
    revert h
    decide
  · intro h1 h2
    unfold on_analysis_error; rw [if_neg h1, if_pos h2]
  · intro h1 h2 h3
    unfold on_analysis_error; rw [if_neg h1, if_neg h2, if_pos h3]
  · intro h1 h2 h3
    unfold on_analysis_error; rw [if_neg h1, if_neg h2, if_neg h3]

/-- C4 witness: a 401 message is rewritten to the authentication hint. -/
theorem on_analysis_error_classification_witness :
    authCond "Error code: 401 - Unauthorized" ∧
      (on_analysis_error "Error code: 401 - Unauthorized" = authHint ∧
        on_analysis_error "Error code: 401 - Unauthorized" ≠ "Error code: 401 - Unauthorized") :=
  ⟨by decide, (on_analysis_error_classification "Error code: 401 - Unauthorized").1 (by decide)⟩

/-- C6: a submission whose credential, image path, either coordinate, or
prompt is empty (after stripping) is rejected with a validation error, no
worker is started, and the client is never invoked. -/
theorem run_analysis_rejects_empty (apiInput : String) (imagePath : Option String)
    (latInput lonInput promptInput : String)
    (h : pyStrip apiInput = "" ∨ imagePath.getD "" = "" ∨ pyStrip latInput = "" ∨
      pyStrip lonInput = "" ∨ pyStrip promptInput = "") :
    (∃ e, run_analysis apiInput imagePath latInput lonInput promptInput = .error e) ∧
      clientCalls (run_analysis apiInput imagePath latInput lonInput promptInput) = 0 := by
  simp only [run_analysis]
  split_ifs with h1 h2 h3 h4
  · exact ⟨⟨_, rfl⟩, rfl⟩
  · exact ⟨⟨_, rfl⟩, rfl⟩
  · exact ⟨⟨_, rfl⟩, rfl⟩
  · exact ⟨⟨_, rfl⟩, rfl⟩
  · exfalso
    rcases h with h | h | h | h | h
    · exact h1 h
    · exact h2 h
    · exact h3 (Or.inl h)
    · exact h3 (Or.inr h)
    · exact h4 h

/-- C6 witness: an all-whitespace credential with otherwise valid inputs is
rejected and leads to zero client calls. -/
theorem run_analysis_rejects_empty_witness :
    (pyStrip "   " = "" ∨ (some "photo.jpg").getD "" = "" ∨ pyStrip "48.8584" = "" ∨
        pyStrip "2.2945" = "" ∨ pyStrip "Analyze the shadows." = "") ∧
      ((∃ e, run_analysis "   " (some "photo.jpg") "48.8584" "2.2945" "Analyze the shadows."
          = .error e) ∧
        clientCalls (run_analysis "   " (some "photo.jpg") "48.8584" "2.2945"
          "Analyze the shadows.") = 0) :=
  ⟨by decide,
    run_analysis_rejects_empty "   " (some "photo.jpg") "48.8584" "2.2945"
      "Analyze the shadows." (by decide)⟩

/-- C5: with the credential, image and both coordinates valid, the submission
is rejected with a validation error exactly when the prompt template, after
substituting both placeholders with the stripped coordinate strings, is empty
or whitespace-only. -/
theorem run_analysis_prompt_validation (apiInput : String) (imagePath : Option String)
    (latInput lonInput promptInput : String)
    (hk : pyStrip apiInput ≠ "") (hi : imagePath.getD "" ≠ "")
    (hla : pyStrip latInput ≠ "") (hlo : pyStrip lonInput ≠ "") :
    (∃ e, run_analysis apiInput imagePath latInput lonInput promptInput = .error e) ↔
      pyStrip (resolvePrompt (pyStrip promptInput) (pyStrip latInput) (pyStrip lonInput))
        = "" := by
  simp only [run_analysis]
  rw [if_neg hk, if_neg hi, if_neg (by push_neg; exact ⟨hla, hlo⟩)]
  by_cases hp : pyStrip promptInput = ""
  · rw [if_pos hp, hp]
    constructor
    · intro _
      rfl
    · intro _
      exact ⟨.emptyPrompt, rfl⟩
  · rw [if_neg hp]
    constructor
    · rintro ⟨e, he⟩
      cases he
    · intro hcontra
      exfalso
      obtain ⟨cp, hcp, hcp2⟩ := exists_nonspace_of_pyStrip_ne promptInput hp
      obtain ⟨ca, hca, hca2⟩ := exists_nonspace_of_pyStrip_ne latInput hla
      obtain ⟨co, hco, hco2⟩ := exists_nonspace_of_pyStrip_ne lonInput hlo
      have step1 : ∃ c ∈ replaceL latToken.data (pyStrip latInput).data
          (pyStrip promptInput).data, (!isPySpace c) = true :=
        replaceL_mem _ _ _ _ ⟨ca, hca, hca2⟩ ⟨cp, hcp, hcp2⟩
      have step2 : ∃ c ∈ (resolvePrompt (pyStrip promptInput) (pyStrip latInput)
          (pyStrip lonInput)).data, (!isPySpace c) = true :=
        replaceL_mem _ _ _ _ ⟨co, hco, hco2⟩ step1
      obtain ⟨d, hd, hd2⟩ := step2
      have := (pyStrip_eq_empty_iff _).mp hcontra d hd
      rw [this] at hd2
      cases hd2

/-- C5 witness: with valid credential, image and coordinates, a template
consisting of one placeholder resolves to a non-blank prompt and is accepted,
and an all-whitespace template resolves blank and is rejected. -/
theorem run_analysis_prompt_validation_witness :
    pyStrip "sk-key" ≠ "" ∧ (some "photo.jpg").getD "" ≠ "" ∧
      pyStrip "48.8584" ≠ "" ∧ pyStrip "2.2945" ≠ "" ∧
      ((∃ e, run_analysis "sk-key" (some "photo.jpg") "48.8584" "2.2945" " \x7blat\x7d "
          = .error e) ↔
        pyStrip (resolvePrompt (pyStrip " \x7blat\x7d ") (pyStrip "48.8584")
          (pyStrip "2.2945")) = "") :=
  ⟨by decide, by decide, by decide, by decide,
    run_analysis_prompt_validation "sk-key" (some "photo.jpg") "48.8584" "2.2945"
      " \x7blat\x7d " (by decide) (by decide) (by decide) (by decide)⟩

/-- C8: once a single application of the substitution step leaves no residual
placeholder token, a second application changes nothing. -/
theorem resolvePrompt_idempotent (t la lo : String)
    (h1 : ¬ pyContains (resolvePrompt t la lo) latToken)
    (h2 : ¬ pyContains (resolvePrompt t la lo) lonToken) :
    resolvePrompt (resolvePrompt t la lo) la lo = resolvePrompt t la lo := by
  have e1 : replaceL latToken.data la.data (resolvePrompt t la lo).data
      = (resolvePrompt t la lo).data := replaceL_eq_self _ _ _ h1
  have e2 : replaceL lonToken.data lo.data (resolvePrompt t la lo).data
      = (resolvePrompt t la lo).data := replaceL_eq_self _ _ _ h2
  show (⟨replaceL lonToken.data lo.data
    (replaceL latToken.data la.data (resolvePrompt t la lo).data)⟩ : String)
    = resolvePrompt t la lo
  rw [e1, e2]

/-- C8 witness: the spec's example template resolves in one pass and a second
pass leaves it unchanged. -/
theorem resolvePrompt_idempotent_witness :
    ¬ pyContains (resolvePrompt "lat=\x7blat\x7d lon=\x7blon\x7d" "48.8584" "2.2945") latToken ∧
      ¬ pyContains (resolvePrompt "lat=\x7blat\x7d lon=\x7blon\x7d" "48.8584" "2.2945") lonToken ∧
      resolvePrompt (resolvePrompt "lat=\x7blat\x7d lon=\x7blon\x7d" "48.8584" "2.2945")
          "48.8584" "2.2945"
        = resolvePrompt "lat=\x7blat\x7d lon=\x7blon\x7d" "48.8584" "2.2945" :=
  ⟨by decide, by decide,
    resolvePrompt_idempotent "lat=\x7blat\x7d lon=\x7blon\x7d" "48.8584" "2.2945"
      (by decide) (by decide)⟩

/-- C10: the lat placeholder is substituted globally before the lon
placeholder, so a lon token contributed by the latitude string is itself
replaced: whenever the template mentions the lat token and the latitude
string contains the lon token, the longitude string appears verbatim in the
resolved prompt. -/
theorem resolvePrompt_lat_first (t la lo : String)
    (h1 : pyContains t latToken) (h2 : pyContains la lonToken) :
    pyContains (resolvePrompt t la lo) lo := by
  have hlat : latToken.data ≠ [] := by decide
  have hlon : lonToken.data ≠ [] := by decide
  have hla : la.data <:+: (replaceStr t latToken la).data :=
    rep_infix_replaceL _ _ _ hlat h1
  have hlon_in : lonToken.data <:+: (replaceStr t latToken la).data :=
    List.IsInfix.trans h2 hla
  exact rep_infix_replaceL _ _ _ hlon hlon_in

/-- C10 witness: a latitude string carrying the lon token has that token
replaced by the longitude value in the resolved prompt. -/
theorem resolvePrompt_lat_first_witness :
    pyContains "see \x7blat\x7d" latToken ∧ pyContains "N\x7blon\x7d" lonToken ∧
      pyContains (resolvePrompt "see \x7blat\x7d" "N\x7blon\x7d" "2.2945") "2.2945" :=
  ⟨by decide, by decide,
    resolvePrompt_lat_first "see \x7blat\x7d" "N\x7blon\x7d" "2.2945" (by decide) (by decide)⟩

/-- C9 counterexample: after a completed run the application, through its
retained worker reference, still holds the API credential — the claim that no
long-lived object retains it after the run is false. -/
theorem credential_retained_counterexample :
    retains_credential
        (on_analysis_complete
          (app_run_analysis
            ⟨"sk-secret-key", "48.8584", "2.2945", "Analyze the shadows.",
              some "photo.jpg", none, false, ""⟩)
          "Shadow points northeast.")
        "sk-secret-key" = true ∧
      (on_analysis_complete
          (app_run_analysis
            ⟨"sk-secret-key", "48.8584", "2.2945", "Analyze the shadows.",
              some "photo.jpg", none, false, ""⟩)
          "Shadow points northeast.").analyzing = false := by
  exact ⟨rfl, rfl⟩

/-- C9 amended: the credential is read from the input field at call time and
handed to the per-run worker, which stores it in an attribute; the app's
worker reference — credential included — survives the completion of the run. -/
theorem credential_retention (st : AppState) (r : String) (w : WorkerArgs)
    (hrun : run_analysis st.api_input st.image_path st.lat_input st.lon_input st.prompt_text
      = .ok w) :
    w.api_key = pyStrip st.api_input ∧
      (app_run_analysis st).worker = some w ∧
      (on_analysis_complete (app_run_analysis st) r).worker = some w := by
  have h1 : (app_run_analysis st).worker = some w := by
    unfold app_run_analysis
    rw [hrun]
  refine ⟨?_, h1, h1⟩
  simp only [run_analysis] at hrun
  split_ifs at hrun
  injection hrun with h
  rw [← h]

/-- C9 amended witness: a concrete valid submission stores the stripped
credential on the worker and the reference survives completion. -/
theorem credential_retention_witness :
    run_analysis "sk-secret" (some "p.jpg") "48" "2" "go"
        = .ok ⟨"sk-secret", "p.jpg", "48", "2", "go"⟩ ∧
      (⟨"sk-secret", "p.jpg", "48", "2", "go"⟩ : WorkerArgs).api_key = pyStrip "sk-secret" ∧
        (app_run_analysis ⟨"sk-secret", "48", "2", "go", some "p.jpg", none, false, ""⟩).worker
          = some ⟨"sk-secret", "p.jpg", "48", "2", "go"⟩ ∧
        (on_analysis_complete
            (app_run_analysis ⟨"sk-secret", "48", "2", "go", some "p.jpg", none, false, ""⟩)
            "done").worker
          = some ⟨"sk-secret", "p.jpg", "48", "2", "go"⟩ :=
  ⟨rfl,
    credential_retention ⟨"sk-secret", "48", "2", "go", some "p.jpg", none, false, ""⟩
      "done" ⟨"sk-secret", "p.jpg", "48", "2", "go"⟩ rfl⟩

/-! Rounding sign lemmas for the DMS conversion. -/

theorem roundHalfEven_nonneg (q : ℚ) (hq : 0 ≤ q) : 0 ≤ roundHalfEven q := by
  simp only [roundHalfEven]
  have hf : 0 ≤ ⌊q⌋ := Int.floor_nonneg.mpr hq
  split_ifs <;> omega

theorem roundHalfEven_nonpos (q : ℚ) (hq : q ≤ 0) : roundHalfEven q ≤ 0 := by
  simp only [roundHalfEven]
  have hf : ⌊q⌋ ≤ 0 := Int.floor_nonpos hq
  have hfl : (⌊q⌋ : ℚ) ≤ q := Int.floor_le q
  split_ifs with h1 h2 h3
  · exact hf
  · have hc : (⌊q⌋ : ℚ) < 0 := by linarith
    have : ⌊q⌋ < 0 := by exact_mod_cast hc
    omega
  · exact hf
  · have hr : q - (⌊q⌋ : ℚ) = 1 / 2 := le_antisymm (not_lt.mp h2) (not_lt.mp h1)
    have hc : (⌊q⌋ : ℚ) < 0 := by linarith
    have : ⌊q⌋ < 0 := by exact_mod_cast hc
    omega

theorem pyRound6_nonneg (q : ℚ) (hq : 0 ≤ q) : 0 ≤ pyRound6 q := by
  unfold pyRound6
  apply div_nonneg _ (by norm_num)
  exact_mod_cast roundHalfEven_nonneg _ (mul_nonneg hq (by norm_num))

theorem pyRound6_nonpos (q : ℚ) (hq : q ≤ 0) : pyRound6 q ≤ 0 := by
  unfold pyRound6
  refine div_nonpos_iff.mpr (Or.inr ⟨?_, by norm_num⟩)
  exact_mod_cast roundHalfEven_nonpos _ (mul_nonpos_iff.mpr (Or.inr ⟨hq, by norm_num⟩))

/-- C2 amended: for every non-negative DMS triple, the conversion yields the
rounded value of degrees + minutes/60 + seconds/3600, negated for the S and W
hemisphere references; the result is non-positive (not always strictly
negative) for S/W and non-negative otherwise. -/
theorem dms_to_dd_spec (d m s : ℚ) (hd : 0 ≤ d) (hm : 0 ≤ m) (hs : 0 ≤ s) (ref : String) :
    ((ref = "S" ∨ ref = "W") →
      dms_to_dd d m s ref = pyRound6 (-(d + m / 60 + s / 3600)) ∧ dms_to_dd d m s ref ≤ 0) ∧
    (¬(ref = "S" ∨ ref = "W") →
      dms_to_dd d m s ref = pyRound6 (d + m / 60 + s / 3600) ∧ 0 ≤ dms_to_dd d m s ref) := by
  have hdd : 0 ≤ d + m / 60 + s / 3600 :=
    add_nonneg (add_nonneg hd (div_nonneg hm (by norm_num))) (div_nonneg hs (by norm_num))
  constructor
  · intro h
    have he : dms_to_dd d m s ref = pyRound6 (-(d + m / 60 + s / 3600)) := by
      simp only [dms_to_dd]
      rw [if_pos h]
    exact ⟨he, he ▸ pyRound6_nonpos _ (by linarith)⟩
  · intro h
    have he : dms_to_dd d m s ref = pyRound6 (d + m / 60 + s / 3600) := by
      simp only [dms_to_dd]
      rw [if_neg h]
    exact ⟨he, he ▸ pyRound6_nonneg _ hdd⟩

/-- C2 counterexample: the all-zero southern DMS triple converts to exactly 0,
which is not negative, refuting strict negativity for the S reference. -/
theorem dms_to_dd_zero_south :
    dms_to_dd 0 0 0 "S" = 0 ∧ ¬ dms_to_dd 0 0 0 "S" < 0 := by
  have h : dms_to_dd 0 0 0 "S" = 0 := by
    simp only [dms_to_dd, pyRound6, roundHalfEven]
    norm_num
  exact ⟨h, by rw [h]; exact lt_irrefl 0⟩

/-- C2 amended witness: 48 degrees 51 minutes 30 seconds South is mapped to
the negated rounded value, and is non-positive. -/
theorem dms_to_dd_spec_witness :
    (0 : ℚ) ≤ 48 ∧ (0 : ℚ) ≤ 51 ∧ (0 : ℚ) ≤ 30 ∧
      ((("S" : String) = "S" ∨ ("S" : String) = "W") →
        dms_to_dd 48 51 30 "S" = pyRound6 (-(48 + 51 / 60 + 30 / 3600)) ∧
          dms_to_dd 48 51 30 "S" ≤ 0) :=
  ⟨by simp, by simp, by simp,
    (dms_to_dd_spec 48 51 30 (by simp) (by simp) (by simp) "S").1⟩

/-! Geometry lemmas for the thumbnail bound. -/

theorem round_aspect_cases (ν : ℚ) (key : ℤ → ℚ) :
    round_aspect ν key = max ⌊ν⌋ 1 ∨ round_aspect ν key = max ⌈ν⌉ 1 := by
  unfold round_aspect
  split_ifs
  · exact Or.inl rfl
  · exact Or.inr rfl

theorem one_le_round_aspect (ν : ℚ) (key : ℤ → ℚ) : 1 ≤ round_aspect ν key :=
  le_max_right _ _

theorem round_aspect_le (ν : ℚ) (key : ℤ → ℚ) (B : ℤ) (hB : 1 ≤ B) (hν : ν ≤ (B : ℚ)) :
    round_aspect ν key ≤ B := by
  rcases round_aspect_cases ν key with h | h <;> rw [h]
  · refine max_le ?_ hB
    have := Int.floor_le_floor hν
    rwa [Int.floor_intCast] at this
  · exact max_le (Int.ceil_le.mpr hν) hB

/-- Either rounding choice of round_aspect lands within one unit of the exact
aspect-preserving value (the clamp to 1 included, for positive values). -/
theorem round_aspect_close (ν : ℚ) (key : ℤ → ℚ) (h0 : 0 < ν) :
    |((round_aspect ν key : ℤ) : ℚ) - ν| ≤ 1 := by
  have hfl : (⌊ν⌋ : ℚ) ≤ ν := Int.floor_le ν
  have hfl2 : ν < (⌊ν⌋ : ℚ) + 1 := Int.lt_floor_add_one ν
  have hcl : ν ≤ (⌈ν⌉ : ℚ) := Int.le_ceil ν
  have hcl2 : (⌈ν⌉ : ℚ) < ν + 1 := Int.ceil_lt_add_one ν
  rcases round_aspect_cases ν key with h | h <;> rw [h]
  · rcases le_or_lt 1 ⌊ν⌋ with hle | hlt
    · rw [max_eq_left hle, abs_le]
      constructor <;> linarith
    · rw [max_eq_right (by omega : ⌊ν⌋ ≤ 1)]
      have hc : (⌊ν⌋ : ℚ) ≤ 0 := by exact_mod_cast (by omega : ⌊ν⌋ ≤ 0)
      rw [abs_le]
      push_cast
      constructor <;> linarith
  · have hc1 : 1 ≤ ⌈ν⌉ := by
      have := Int.ceil_pos.mpr h0
      omega
    rw [max_eq_left hc1, abs_le]
    constructor <;> linarith

/-- An oversized image is brought within the 1920 bound with both dimensions
at least 1 and the cross product of old and new dimensions off by at most the
longer original side — the dimensions match the exact aspect-preserving
scaling up to rounding of a single side. -/
theorem thumbnailDims_large (w h : ℕ) (hw : 1 ≤ w) (hh : 1 ≤ h) (hbig : 1920 < max w h) :
    (thumbnailDims 1920 w h).1 ≤ 1920 ∧ (thumbnailDims 1920 w h).2 ≤ 1920 ∧
      1 ≤ (thumbnailDims 1920 w h).1 ∧ 1 ≤ (thumbnailDims 1920 w h).2 ∧
      |((thumbnailDims 1920 w h).1 : ℚ) * (h : ℚ)
          - (w : ℚ) * ((thumbnailDims 1920 w h).2 : ℚ)|
        ≤ ((max w h : ℕ) : ℚ) := by
  have hq : (0 : ℚ) < (h : ℚ) := by exact_mod_cast Nat.lt_of_lt_of_le Nat.zero_lt_one hh
  have wq : (0 : ℚ) < (w : ℚ) := by exact_mod_cast Nat.lt_of_lt_of_le Nat.zero_lt_one hw
  have hcond : ¬(1920 ≥ w ∧ 1920 ≥ h) := by
    rintro ⟨h1, h2⟩
    rcases lt_max_iff.mp hbig with h3 | h3 <;> omega
  unfold thumbnailDims
  rw [if_neg hcond]
  by_cases hcase : (1 : ℚ) ≥ (w : ℚ) / (h : ℚ)
  · rw [if_pos hcase]
    have hwh : w ≤ h := by
      have := (div_le_one hq).mp hcase
      exact_mod_cast this
    set X := round_aspect (((1920 : ℕ) : ℚ) * ((w : ℚ) / (h : ℚ)))
      (fun n => |(w : ℚ) / (h : ℚ) - (n : ℚ) / ((1920 : ℕ) : ℚ)|) with hX
    have hν0 : 0 < ((1920 : ℕ) : ℚ) * ((w : ℚ) / (h : ℚ)) := by
      refine mul_pos ?_ (div_pos wq hq)
      norm_num
    have hν1920 : ((1920 : ℕ) : ℚ) * ((w : ℚ) / (h : ℚ)) ≤ ((1920 : ℤ) : ℚ) := by
      push_cast
      nlinarith
    have hx1 : 1 ≤ X := one_le_round_aspect _ _
    have hxle : X ≤ 1920 := round_aspect_le _ _ 1920 (by norm_num) hν1920
    have hx0 : (0 : ℤ) ≤ X := by omega
    have hcast : ((X.toNat : ℕ) : ℚ) = ((X : ℤ) : ℚ) := by
      exact_mod_cast congrArg (fun n : ℤ => (n : ℚ)) (Int.toNat_of_nonneg hx0)
    refine ⟨?_, ?_, ?_, ?_, ?_⟩
    · show X.toNat ≤ 1920
      omega
    · show (1920 : ℕ) ≤ 1920
      omega
    · show 1 ≤ X.toNat
      omega
    · show 1 ≤ (1920 : ℕ)
      omega
    · have hclose := round_aspect_close (((1920 : ℕ) : ℚ) * ((w : ℚ) / (h : ℚ)))
        (fun n => |(w : ℚ) / (h : ℚ) - (n : ℚ) / ((1920 : ℕ) : ℚ)|) hν0
      rw [← hX] at hclose
      have hνh : ((1920 : ℕ) : ℚ) * ((w : ℚ) / (h : ℚ)) * (h : ℚ)
          = ((1920 : ℕ) : ℚ) * (w : ℚ) := by
        field_simp
      have heq : ((X : ℤ) : ℚ) * (h : ℚ) - (w : ℚ) * ((1920 : ℕ) : ℚ)
          = (((X : ℤ) : ℚ) - ((1920 : ℕ) : ℚ) * ((w : ℚ) / (h : ℚ))) * (h : ℚ) := by
        rw [sub_mul, hνh]
        ring
      have hmax : ((max w h : ℕ) : ℚ) = (h : ℚ) := by
        rw [Nat.max_eq_right hwh]
      calc |((X.toNat : ℕ) : ℚ) * (h : ℚ) - (w : ℚ) * ((1920 : ℕ) : ℚ)|
          = |(((X : ℤ) : ℚ) - ((1920 : ℕ) : ℚ) * ((w : ℚ) / (h : ℚ))) * (h : ℚ)| := by
            rw [hcast, heq]
        _ = |((X : ℤ) : ℚ) - ((1920 : ℕ) : ℚ) * ((w : ℚ) / (h : ℚ))| * |(h : ℚ)| :=
            abs_mul _ _
        _ ≤ 1 * (h : ℚ) := by
            rw [abs_of_nonneg (le_of_lt hq)]
            exact mul_le_mul_of_nonneg_right hclose (le_of_lt hq)
        _ = (h : ℚ) := one_mul _
        _ = ((max w h : ℕ) : ℚ) := hmax.symm
  · rw [if_neg hcase]
    have hwh : h < w := by
      have h1 : (1 : ℚ) < (w : ℚ) / (h : ℚ) := not_le.mp hcase
      have := (lt_div_iff₀ hq).mp h1
      rw [one_mul] at this
      exact_mod_cast this
    have haspect1 : (1 : ℚ) ≤ (w : ℚ) / (h : ℚ) := le_of_lt (not_le.mp hcase)
    set Y := round_aspect (((1920 : ℕ) : ℚ) / ((w : ℚ) / (h : ℚ)))
      (fun n => if n = 0 then 0 else |(w : ℚ) / (h : ℚ) - ((1920 : ℕ) : ℚ) / (n : ℚ)|)
      with hY
    have hν0 : 0 < ((1920 : ℕ) : ℚ) / ((w : ℚ) / (h : ℚ)) := by
      refine div_pos ?_ (div_pos wq hq)
      norm_num
    have hν1920 : ((1920 : ℕ) : ℚ) / ((w : ℚ) / (h : ℚ)) ≤ ((1920 : ℤ) : ℚ) := by
      push_cast
      exact div_le_self (by norm_num) haspect1
    have hy1 : 1 ≤ Y := one_le_round_aspect _ _
    have hyle : Y ≤ 1920 := round_aspect_le _ _ 1920 (by norm_num) hν1920
    have hy0 : (0 : ℤ) ≤ Y := by omega
    have hcast : ((Y.toNat : ℕ) : ℚ) = ((Y : ℤ) : ℚ) := by
      exact_mod_cast congrArg (fun n : ℤ => (n : ℚ)) (Int.toNat_of_nonneg hy0)
    refine ⟨?_, ?_, ?_, ?_, ?_⟩
    · show (1920 : ℕ) ≤ 1920
      omega
    · show Y.toNat ≤ 1920
      omega
    · show 1 ≤ (1920 : ℕ)
      omega
    · show 1 ≤ Y.toNat
      omega
    · have hclose := round_aspect_close (((1920 : ℕ) : ℚ) / ((w : ℚ) / (h : ℚ)))
        (fun n => if n = 0 then 0 else |(w : ℚ) / (h : ℚ) - ((1920 : ℕ) : ℚ) / (n : ℚ)|) hν0
      rw [← hY] at hclose
      have hνw : ((1920 : ℕ) : ℚ) / ((w : ℚ) / (h : ℚ)) * (w : ℚ)
          = ((1920 : ℕ) : ℚ) * (h : ℚ) := by
        field_simp
      have heq : ((1920 : ℕ) : ℚ) * (h : ℚ) - (w : ℚ) * ((Y : ℤ) : ℚ)
          = (((1920 : ℕ) : ℚ) / ((w : ℚ) / (h : ℚ)) - ((Y : ℤ) : ℚ)) * (w : ℚ) := by
        rw [sub_mul, hνw]
        ring
      have hmax : ((max w h : ℕ) : ℚ) = (w : ℚ) := by
        rw [Nat.max_eq_left (le_of_lt hwh)]
      calc |((1920 : ℕ) : ℚ) * (h : ℚ) - (w : ℚ) * ((Y.toNat : ℕ) : ℚ)|
          = |(((1920 : ℕ) : ℚ) / ((w : ℚ) / (h : ℚ)) - ((Y : ℤ) : ℚ)) * (w : ℚ)| := by
            rw [hcast, heq]
        _ = |((1920 : ℕ) : ℚ) / ((w : ℚ) / (h : ℚ)) - ((Y : ℤ) : ℚ)| * |(w : ℚ)| :=
            abs_mul _ _
        _ ≤ 1 * (w : ℚ) := by
            rw [abs_of_nonneg (le_of_lt wq)]
            refine mul_le_mul_of_nonneg_right ?_ (le_of_lt wq)
            rw [abs_sub_comm]
            exact hclose
        _ = (w : ℚ) := one_mul _
        _ = ((max w h : ℕ) : ℚ) := hmax.symm

theorem thumbnailDims_small (w h : ℕ) (hw : w ≤ 1920) (hh : h ≤ 1920) :
    thumbnailDims 1920 w h = (w, h) := by
  unfold thumbnailDims
  rw [if_pos ⟨hw, hh⟩]

/-- C1: the encoding step leaves pixel dimensions unchanged when the longer
dimension is at most 1920; otherwise both output dimensions are positive, at
most 1920, and the output aspect ratio matches the input's up to the rounding
of one dimension (cross products differ by at most the longer original side). -/
theorem encode_image_dimension_policy (img : LoadedImage) (mg : Option String)
    (hw : 1 ≤ img.width) (hh : 1 ≤ img.height) :
    (max img.width img.height ≤ 1920 →
      (encode_image img mg).width = img.width ∧ (encode_image img mg).height = img.height) ∧
    (1920 < max img.width img.height →
      max (encode_image img mg).width (encode_image img mg).height ≤ 1920 ∧
      1 ≤ (encode_image img mg).width ∧ 1 ≤ (encode_image img mg).height ∧
      |((encode_image img mg).width : ℚ) * (img.height : ℚ)
          - (img.width : ℚ) * ((encode_image img mg).height : ℚ)|
        ≤ ((max img.width img.height : ℕ) : ℚ)) := by
  have hew : (encode_image img mg).width = (thumbnailDims 1920 img.width img.height).1 := rfl
  have heh : (encode_image img mg).height = (thumbnailDims 1920 img.width img.height).2 := rfl
  constructor
  · intro hle
    rw [hew, heh, thumbnailDims_small _ _ (le_trans (le_max_left _ _) hle)
      (le_trans (le_max_right _ _) hle)]
    exact ⟨rfl, rfl⟩
  · intro hbig
    obtain ⟨h1, h2, h3, h4, h5⟩ := thumbnailDims_large img.width img.height hw hh hbig
    rw [hew, heh]
    exact ⟨max_le h1 h2, h3, h4, h5⟩

/-- C1 witness: a 3840x2160 JPEG is downsampled within the bound while a
small image passes through; both conclusions hold at this concrete input. -/
theorem encode_image_dimension_policy_witness :
    (1 : ℕ) ≤ (⟨3840, 2160, "RGB", some "JPEG"⟩ : LoadedImage).width ∧
    (1 : ℕ) ≤ (⟨3840, 2160, "RGB", some "JPEG"⟩ : LoadedImage).height ∧
    ((max 3840 2160 ≤ 1920 →
        (encode_image ⟨3840, 2160, "RGB", some "JPEG"⟩ (some "image/jpeg")).width = 3840 ∧
        (encode_image ⟨3840, 2160, "RGB", some "JPEG"⟩ (some "image/jpeg")).height = 2160) ∧
      (1920 < max 3840 2160 →
        max (encode_image ⟨3840, 2160, "RGB", some "JPEG"⟩ (some "image/jpeg")).width
            (encode_image ⟨3840, 2160, "RGB", some "JPEG"⟩ (some "image/jpeg")).height ≤ 1920 ∧
        1 ≤ (encode_image ⟨3840, 2160, "RGB", some "JPEG"⟩ (some "image/jpeg")).width ∧
        1 ≤ (encode_image ⟨3840, 2160, "RGB", some "JPEG"⟩ (some "image/jpeg")).height ∧
        |((encode_image ⟨3840, 2160, "RGB", some "JPEG"⟩ (some "image/jpeg")).width : ℚ)
            * ((2160 : ℕ) : ℚ)
            - ((3840 : ℕ) : ℚ)
              * ((encode_image ⟨3840, 2160, "RGB", some "JPEG"⟩ (some "image/jpeg")).height : ℚ)|
          ≤ ((max 3840 2160 : ℕ) : ℚ))) :=
  ⟨by decide, by decide,
    encode_image_dimension_policy ⟨3840, 2160, "RGB", some "JPEG"⟩ (some "image/jpeg")
      (by decide) (by decide)⟩

/-- C7 counterexample: a grayscale-plus-alpha (LA) image whose target encoding
and MIME type are JPEG keeps its alpha-carrying mode: it is not converted to
RGB, refuting the claim for alpha modes other than RGBA. -/
theorem encode_image_la_not_converted :
    modeHasAlpha "LA" = true ∧
      (encode_image ⟨100, 100, "LA", none⟩ none).fmt = "JPEG" ∧
      (encode_image ⟨100, 100, "LA", none⟩ none).mime_type = "image/jpeg" ∧
      (encode_image ⟨100, 100, "LA", none⟩ none).mode = "LA" ∧
      (encode_image ⟨100, 100, "LA", none⟩ none).mode ≠ "RGB" := by
  exact ⟨rfl, rfl, rfl, rfl, by decide⟩

/-- C7 amended: when the transmission MIME type is image/jpeg, exactly the
modes RGBA and P are converted to plain RGB before serialization; every other
mode — the alpha-carrying LA included — is passed through unchanged. -/
theorem encode_image_mode_conversion (img : LoadedImage) (mg : Option String) :
    ((encode_image img mg).mime_type = "image/jpeg" ∧ (img.mode = "RGBA" ∨ img.mode = "P") →
      (encode_image img mg).mode = "RGB") ∧
    (img.mode ≠ "RGBA" → img.mode ≠ "P" → (encode_image img mg).mode = img.mode) := by
  constructor
  · rintro ⟨hm, hmode⟩
    show (if mg.getD "image/jpeg" = "image/jpeg" ∧ (img.mode = "RGBA" ∨ img.mode = "P")
      then "RGB" else img.mode) = "RGB"
    exact if_pos ⟨hm, hmode⟩
  · intro h1 h2
    show (if mg.getD "image/jpeg" = "image/jpeg" ∧ (img.mode = "RGBA" ∨ img.mode = "P")
      then "RGB" else img.mode) = img.mode
    refine if_neg ?_
    rintro ⟨-, h | h⟩
    · exact h1 h
    · exact h2 h

/-- C7 amended witness: an RGBA image sent as JPEG is converted to RGB. -/
theorem encode_image_mode_conversion_witness :
    ((encode_image ⟨800, 600, "RGBA", some "PNG"⟩ (some "image/jpeg")).mime_type = "image/jpeg" ∧
        (("RGBA" : String) = "RGBA" ∨ ("RGBA" : String) = "P")) ∧
      (encode_image ⟨800, 600, "RGBA", some "PNG"⟩ (some "image/jpeg")).mode = "RGB" :=
  ⟨⟨rfl, Or.inl rfl⟩,
    (encode_image_mode_conversion ⟨800, 600, "RGBA", some "PNG"⟩ (some "image/jpeg")).1
      ⟨rfl, Or.inl rfl⟩⟩

end ShadowDefective
